import Mathlib

/-!
Shallow embedding of the `range_date` Rust crate (src/lib.rs, src/range_type.rs)
and a verification of the specification's claims about it.

Modelling conventions:
* Rust `u32` values are `Nat`s; arithmetic that can overflow carries an
  explicit `% 4294967296` (release-build wrapping; debug builds would panic).
* The cast `year as i32` is `u32AsI32`, the cast `x as u32` on an `i32` is
  `i32AsU32` (bit reinterpretation).
* `anyhow::Result` is `Except PeriodError`; each distinct `anyhow!`/`bail!`
  site gets its own `PeriodError` constructor (messages elided).
* Rust `&str` values are `List Char` (unicode scalar values); byte indexing
  is modelled through UTF-8 widths, and an out-of-bounds or non-boundary
  slice -- which panics in Rust -- is modelled as `Option.none`.
* The external `chrono` collaborator (`NaiveDate`) is modelled from the spec:
  proleptic Gregorian dates with year/month/day accessors, day-of-year
  (`ordinal`), and month arithmetic.
-/

/-- Word size of Rust `u32`: 2^32. -/
def u32Mod : Nat := 4294967296

/-- Half the word size, 2^31: the first `u32` value that reinterprets as a
negative `i32`. -/
def i32Half : Nat := 2147483648

/-- The Rust cast `y as i32` applied to a `u32` value: bit reinterpretation,
so values at or above 2^31 become negative. -/
def u32AsI32 (y : Nat) : Int :=
  if y < i32Half then (y : Int) else (y : Int) - (u32Mod : Int)

/-- The Rust cast `x as u32` applied to an `i32` value: bit reinterpretation,
i.e. reduction modulo 2^32. -/
def i32AsU32 (x : Int) : Nat := (x % (u32Mod : Int)).toNat

/-- Source `leap_year` (src/lib.rs): `(year % 4 == 0 && year % 100 != 0) ||
(year % 400 == 0)`. Rust `%` is the truncated remainder while `Int.emod`
rounds toward negative infinity, but the two agree on whether the remainder
is zero, which is all this function tests. -/
def leap_year (year : Int) : Bool :=
  (year % 4 == 0 && year % 100 != 0) || (year % 400 == 0)

/-- The spec predicate `IsLeapYear` as section 4.1 states it , applied
directly to the (nonnegative) year value: true iff (year divisible by 4 and
not by 100) or (year divisible by 400). Kept separate from the source
`leap_year`, which the code only ever calls through the `as i32` cast. -/
def IsLeapYearSpec (y : Nat) : Bool :=
  (y % 4 == 0 && y % 100 != 0) || (y % 400 == 0)

/-- Source enum `DatePeriod` (src/range_type.rs). Fields are `u32`s. -/
inductive DatePeriod where
  | Year : Nat → DatePeriod
  | Quarter : Nat → Nat → DatePeriod
  | Month : Nat → Nat → DatePeriod
  | Daily : Nat → Nat → DatePeriod
deriving DecidableEq, Repr

/-- One constructor per distinct `anyhow!`/`bail!` site in the source. -/
inductive PeriodError where
  | quarterOutOfRange
  | monthOutOfRange
  | dayZero
  | dayTooLarge
  | invalidFormat
  | invalidYear
  | yearFormatLength
  | missingIndex
  | invalidIndex
  | invalidPeriodType
  | noPredecessor
deriving DecidableEq, Repr

/-- The day bound the source computes: `if leap_year(year as i32) { 366 }
else { 365 }`. -/
def maxDaysOf (y : Nat) : Nat := if leap_year (u32AsI32 y) then 366 else 365

namespace DatePeriod

/-- Source `DatePeriod::year`: always succeeds. -/
def year (y : Nat) : DatePeriod := .Year y

/-- Source `DatePeriod::quarter`: fails unless `(1..=4).contains(&quarter)`. -/
def quarter (y q : Nat) : Except PeriodError DatePeriod :=
  if ¬ (1 ≤ q ∧ q ≤ 4) then .error .quarterOutOfRange
  else .ok (.Quarter y q)

/-- Source `DatePeriod::month`: fails unless `(1..=12).contains(&month)`. -/
def month (y m : Nat) : Except PeriodError DatePeriod :=
  if ¬ (1 ≤ m ∧ m ≤ 12) then .error .monthOutOfRange
  else .ok (.Month y m)

/-- Source `DatePeriod::daily`: rejects day 0, then rejects days above
`if leap_year(year as i32) { 366 } else { 365 }`. -/
def daily (y d : Nat) : Except PeriodError DatePeriod :=
  if d = 0 then .error .dayZero
  else
    let max_days := maxDaysOf y
    if d > max_days then .error .dayTooLarge
    else .ok (.Daily y d)

/-- Well-formedness: the instance is representable in `u32` fields and could
have been produced by the validated constructors (the "validly constructed"
periods of the claims). -/
def wf : DatePeriod → Bool
  | .Year y => Nat.blt y u32Mod
  | .Quarter y q => Nat.blt y u32Mod && Nat.ble 1 q && Nat.ble q 4
  | .Month y m => Nat.blt y u32Mod && Nat.ble 1 m && Nat.ble m 12
  | .Daily y d => Nat.blt y u32Mod && Nat.ble 1 d && Nat.ble d (maxDaysOf y)

/-- Source `DatePeriod::get_year`. -/
def get_year : DatePeriod → Nat
  | .Year y => y
  | .Quarter y _ => y
  | .Month y _ => y
  | .Daily y _ => y

/-- Discriminant position in the enum declaration, the primary key of the
derived `Ord`. -/
def rank : DatePeriod → Nat
  | .Year _ => 0
  | .Quarter _ _ => 1
  | .Month _ _ => 2
  | .Daily _ _ => 3

/-- The index field compared second by the derived `Ord` (0 for `Year`,
which has no second field). -/
def keyI : DatePeriod → Nat
  | .Year _ => 0
  | .Quarter _ q => q
  | .Month _ m => m
  | .Daily _ d => d

/-- The `<=` of the `#[derive(PartialOrd, Ord)]` on `DatePeriod`: variants
compare by declaration order first, then fields lexicographically (year
field, then index field). -/
def ble (a b : DatePeriod) : Bool :=
  Nat.blt a.rank b.rank ||
    (Nat.beq a.rank b.rank &&
      (Nat.blt a.get_year b.get_year ||
        (Nat.beq a.get_year b.get_year && Nat.ble a.keyI b.keyI)))

/-- Body of source `DatePeriod::succ` (the `match` under the `Ok(...)`).
`(y + 1) % u32Mod` models `u32` addition, which wraps on overflow in release
builds (and panics in debug builds). -/
def succP : DatePeriod → DatePeriod
  | .Year y => .Year ((y + 1) % u32Mod)
  | .Quarter y q =>
      if q < 4 then .Quarter y (q + 1) else .Quarter ((y + 1) % u32Mod) 1
  | .Month y m =>
      if m < 12 then .Month y (m + 1) else .Month ((y + 1) % u32Mod) 1
  | .Daily y d =>
      let max_days := maxDaysOf y
      if d < max_days then .Daily y (d + 1) else .Daily ((y + 1) % u32Mod) 1

/-- Source `DatePeriod::succ`: `Ok(match self { ... })` -- total, it never
constructs an error. -/
def succ (p : DatePeriod) : Except PeriodError DatePeriod := .ok p.succP

/-- Source `DatePeriod::pred`: steps backward, bailing out on the four
year-0 floor cases; a `Daily` crossing a year boundary recomputes the day
bound of the previous year through `leap_year(prev_year as i32)`. -/
def pred : DatePeriod → Except PeriodError DatePeriod
  | .Year y => if y > 0 then .ok (.Year (y - 1)) else .error .noPredecessor
  | .Quarter y q =>
      if q > 1 then .ok (.Quarter y (q - 1))
      else if y > 0 then .ok (.Quarter (y - 1) 4)
      else .error .noPredecessor
  | .Month y m =>
      if m > 1 then .ok (.Month y (m - 1))
      else if y > 0 then .ok (.Month (y - 1) 12)
      else .error .noPredecessor
  | .Daily y d =>
      if d > 1 then .ok (.Daily y (d - 1))
      else if y > 0 then .ok (.Daily (y - 1) (maxDaysOf (y - 1)))
      else .error .noPredecessor

end DatePeriod

/-- True exactly on the `error` case of a result. -/
def isErr {α : Type} (r : Except PeriodError α) : Bool :=
  match r with
  | .error _ => true
  | .ok _ => false

/-! ## Decimal rendering and parsing of `u32` values -/

/-- The ASCII digit character for `k` (meaningful for `k < 10`). -/
def digitChar (k : Nat) : Char := Char.ofNat (48 + k)

/-- Fuel-driven digit accumulation; any fuel above `n` gives the digits of
`n` (see `natDigitsAux_fuel_irrel`). -/
def natDigitsAux : Nat → Nat → List Char
  | 0, _ => []
  | fuel + 1, n =>
      if n < 10 then [digitChar n]
      else natDigitsAux fuel (n / 10) ++ [digitChar (n % 10)]

/-- Decimal digits of `n`, most significant first, no leading zeros
(`"0"` for 0): the output of Rust `{}` formatting of an unsigned integer. -/
def natDigits (n : Nat) : List Char := natDigitsAux (n + 1) n

/-- ASCII digit test, as `str::parse::<u32>` accepts. -/
def isAsciiDigit (c : Char) : Bool := decide (48 ≤ c.toNat ∧ c.toNat ≤ 57)

/-- Value of a digit string, most significant first. -/
def digitsVal (cs : List Char) : Nat :=
  cs.foldl (fun a c => a * 10 + (c.toNat - 48)) 0

/-- Drops one leading `'+'` sign if present (`str::parse::<u32>` accepts an
optional leading plus). -/
def dropPlusSign (cs : List Char) : List Char :=
  match cs with
  | c :: rest => if c = '+' then rest else cs
  | [] => []

/-- Model of Rust `str::parse::<u32>`: an optional `'+'`, then one or more
ASCII digits, with the value required to fit in `u32`. -/
def parseU32 (cs : List Char) : Option Nat :=
  if dropPlusSign cs = [] then none
  else if (dropPlusSign cs).all isAsciiDigit then
    if digitsVal (dropPlusSign cs) < u32Mod then
      some (digitsVal (dropPlusSign cs))
    else none
  else none

/-! ## Byte-level view of Rust strings -/

/-- UTF-8 encoded width in bytes of a unicode scalar value. -/
def utf8Len (c : Char) : Nat :=
  if c.toNat < 128 then 1
  else if c.toNat < 2048 then 2
  else if c.toNat < 65536 then 3
  else 4

/-- Rust `str::len`: length in bytes. -/
def byteLen (s : List Char) : Nat := (s.map utf8Len).sum

/-- Splits `s` at byte offset `n`: `some (prefix, rest)` when `n` is a
character boundary within the string, `none` when it is not (where Rust
byte-slicing panics). -/
def takeBytes : Nat → List Char → Option (List Char × List Char)
  | 0, s => some ([], s)
  | _ + 1, [] => none
  | n + 1, c :: cs =>
      if utf8Len c ≤ n + 1 then
        match takeBytes (n + 1 - utf8Len c) cs with
        | some (p, r) => some (c :: p, r)
        | none => none
      else none

/-- The Unicode `White_Space` property, which `char::is_whitespace` tests. -/
def isRustWhitespace (c : Char) : Bool :=
  decide ((9 ≤ c.toNat ∧ c.toNat ≤ 13) ∨ c.toNat = 32 ∨ c.toNat = 133 ∨
    c.toNat = 160 ∨ c.toNat = 5760 ∨ (8192 ≤ c.toNat ∧ c.toNat ≤ 8202) ∨
    c.toNat = 8232 ∨ c.toNat = 8233 ∨ c.toNat = 8239 ∨ c.toNat = 8287 ∨
    c.toNat = 12288)

/-- Leading-whitespace removal (`str::trim_start`). -/
def trimStart (s : List Char) : List Char := s.dropWhile isRustWhitespace

/-- Trailing-whitespace removal (`str::trim_end`):
`(s.reverse.dropWhile ws).reverse`, i.e. `List.rdropWhile`. -/
def trimEnd (s : List Char) : List Char :=
  s.rdropWhile isRustWhitespace

/-- Rust `str::trim`: whitespace removed from both ends. -/
def strTrim (s : List Char) : List Char := trimEnd (trimStart s)

namespace DatePeriod

/-- Source `DatePeriod::parse`. The outer `Option` is `none` exactly where
the Rust code panics: the byte slices `&s[0..4]` and `&s[4..5]` abort when
byte offset 4 or 5 is not a character boundary of the trimmed input. All
length tests are byte lengths, as in the source. -/
def parse (input : List Char) : Option (Except PeriodError DatePeriod) :=
  let s := strTrim input
  if byteLen s < 5 then some (.error .invalidFormat)
  else
    match takeBytes 4 s with
    | none => none
    | some (y4, rest) =>
        match parseU32 y4 with
        | none => some (.error .invalidYear)
        | some yr =>
            match takeBytes 1 rest with
            | none => none
            | some (t1, rest2) =>
                if t1 = ['Y'] then
                  if byteLen s ≠ 5 then some (.error .yearFormatLength)
                  else some (.ok (DatePeriod.year yr))
                else if t1 = ['Q'] then
                  if byteLen s ≤ 5 then some (.error .missingIndex)
                  else
                    match parseU32 rest2 with
                    | none => some (.error .invalidIndex)
                    | some idx => some (DatePeriod.quarter yr idx)
                else if t1 = ['M'] then
                  if byteLen s ≤ 5 then some (.error .missingIndex)
                  else
                    match parseU32 rest2 with
                    | none => some (.error .invalidIndex)
                    | some idx => some (DatePeriod.month yr idx)
                else if t1 = ['D'] then
                  if byteLen s ≤ 5 then some (.error .missingIndex)
                  else
                    match parseU32 rest2 with
                    | none => some (.error .invalidIndex)
                    | some idx => some (DatePeriod.daily yr idx)
                else some (.error .invalidPeriodType)

/-- Source `Display for DatePeriod`: year in plain decimal, tag letter,
index in plain decimal (omitted for `Year`). -/
def display : DatePeriod → List Char
  | .Year y => natDigits y ++ ['Y']
  | .Quarter y q => natDigits y ++ 'Q' :: natDigits q
  | .Month y m => natDigits y ++ 'M' :: natDigits m
  | .Daily y d => natDigits y ++ 'D' :: natDigits d

end DatePeriod

/-! ## The calendar-date collaborator (`chrono::NaiveDate`), modelled from the
spec: proleptic Gregorian dates with year/month/day fields, ordinal
(day-of-year) computation and month lengths. -/

/-- Modelled from the spec: length in days of month `m` of (signed) year `y`
in the proleptic Gregorian calendar, as the external calendar-date
collaborator computes it (add one month to the 1st, subtract one day). -/
def daysInMonthG (y : Int) (m : Nat) : Nat :=
  match m with
  | 1 => 31
  | 2 => if leap_year y then 29 else 28
  | 3 => 31
  | 4 => 30
  | 5 => 31
  | 6 => 30
  | 7 => 31
  | 8 => 31
  | 9 => 30
  | 10 => 31
  | 11 => 30
  | 12 => 31
  | _ => 0

/-- Modelled from the spec: days of year `y` strictly before month `m`
(so the ordinal of the `d`-th of month `m` is this plus `d`). -/
def daysBeforeMonthG (y : Int) : Nat → Nat
  | 0 => 0
  | 1 => 0
  | m + 1 => daysBeforeMonthG y m + daysInMonthG y m

/-- Modelled from the spec: the month containing day-of-year `d` of year `y`
(what `NaiveDate::from_yo_opt(y, d).month()` returns for a valid pair). -/
def monthOfDayOfYear (y : Int) (d : Nat) : Nat :=
  match (List.range 12).find? (fun i => decide (d ≤ daysBeforeMonthG y (i + 2))) with
  | some i => i + 1
  | none => 12

/-- Modelled from the spec: a calendar date as the external collaborator
exposes it -- signed year, month in 1..12, day in 1..days-in-month. -/
structure NDate where
  year : Int
  month : Nat
  day : Nat
deriving DecidableEq, Repr

namespace NDate

/-- The (month, day) pair exists in the proleptic Gregorian calendar for
this year (what `NaiveDate::from_ymd_opt` validates). -/
def valid (d : NDate) : Bool :=
  Nat.ble 1 d.month && Nat.ble d.month 12 && Nat.ble 1 d.day &&
    Nat.ble d.day (daysInMonthG d.year d.month)

/-- Source collaborator `NaiveDate::ordinal`: 1-based day of the year. -/
def ordinal (d : NDate) : Nat := daysBeforeMonthG d.year d.month + d.day

/-- The `<=` of `chrono::NaiveDate`: chronological, i.e. lexicographic on
(year, month, day). -/
def ble (a b : NDate) : Bool :=
  a.year < b.year ||
    (a.year == b.year &&
      (Nat.blt a.month b.month ||
        (Nat.beq a.month b.month && Nat.ble a.day b.day)))

end NDate

namespace DatePeriod

/-- Source `DatePeriod::from_date_as_year`: `Self::year(date.year() as u32)`. -/
def from_date_as_year (date : NDate) : DatePeriod :=
  DatePeriod.year (i32AsU32 date.year)

/-- Source `DatePeriod::from_date_as_quarter`: the month-range match,
written as the equivalent chained comparison (for a valid date the month is
in 1..=12; on other inputs the source hits `unreachable!`). -/
def from_date_as_quarter (date : NDate) : DatePeriod :=
  let y := i32AsU32 date.year
  let q := if date.month ≤ 3 then 1
    else if date.month ≤ 6 then 2
    else if date.month ≤ 9 then 3
    else 4
  .Quarter y q

/-- Source `DatePeriod::from_date_as_month`. -/
def from_date_as_month (date : NDate) : DatePeriod :=
  .Month (i32AsU32 date.year) date.month

/-- Source `DatePeriod::from_date_as_daily`. -/
def from_date_as_daily (date : NDate) : DatePeriod :=
  .Daily (i32AsU32 date.year) date.ordinal

/-- Source `DatePeriod::decompose`.
* `Year` -> quarters 1..4 (the `quarter` constructor always succeeds there,
  see `quarter_ok_of_bounds` below; the source unwraps with `unreachable!`).
* `Quarter` -> the three months from `(quarter - 1) * 3 + 1`.
* `Month` -> `Daily(year, d)` for `d` in `1..=last_day.day()`, where
  `last_day.day()` is the length of the month (1st of the month, plus one
  month, minus one day, computed on `year as i32`). Note these are
  day-of-month indices stored in the day-of-year field.
* `Daily` -> empty. -/
def decompose : DatePeriod → List DatePeriod
  | .Year y => (List.range 4).map (fun i => .Quarter y (i + 1))
  | .Quarter y q =>
      let start_month := (q - 1) * 3 + 1
      (List.range 3).map (fun i => .Month y (start_month + i))
  | .Month y m =>
      let lastDay := daysInMonthG (u32AsI32 y) m
      (List.range lastDay).map (fun d => .Daily y (d + 1))
  | .Daily _ _ => []

/-- Source `DatePeriod::aggregate`.
* `Year` -> itself; `Quarter(y, _)` -> `Year y`;
* `Month(y, m)` -> `Quarter(y, (m - 1) / 3 + 1)` (constructor always
  succeeds for m in 1..=12, the source unwraps with `unreachable!`);
* `Daily(y, d)` -> `Month(date.year() as u32, date.month())` for
  `date = from_yo_opt(y as i32, d)`. -/
def aggregate : DatePeriod → DatePeriod
  | .Year y => .Year y
  | .Quarter y _ => .Year y
  | .Month y m => .Quarter y ((m - 1) / 3 + 1)
  | .Daily y d =>
      .Month (i32AsU32 (u32AsI32 y)) (monthOfDayOfYear (u32AsI32 y) d)

/-- The `while current <= end { push; current = current.succ()? }` loop
shared by the `between_date_as_*` functions, with explicit fuel; `none`
models a run that exceeds the fuel (the Rust loop not terminating within
that many iterations). `succ` never returns an error, so the `?` never
propagates and each step is `succP`. -/
def betweenLoop (endP : DatePeriod) : Nat → DatePeriod → Option (List DatePeriod)
  | 0, _ => none
  | fuel + 1, current =>
      if current.ble endP then
        match betweenLoop endP fuel current.succP with
        | some rest => some (current :: rest)
        | none => none
      else some []

/-- Source `DatePeriod::between_date_as_year`: empty when `start > end`,
otherwise the mapped integer year range. -/
def between_date_as_year (start e : NDate) :
    Option (Except PeriodError (List DatePeriod)) :=
  if start.ble e then
    let start_year := i32AsU32 start.year
    let end_year := i32AsU32 e.year
    some (.ok ((List.range (end_year + 1 - start_year)).map
      (fun i => DatePeriod.year (start_year + i))))
  else some (.ok [])

/-- Source `DatePeriod::between_date_as_quarter`: empty when `start > end`,
otherwise the successor-stepping loop from the start date's quarter while
`current <= end_quarter`. The fuel bounds the iteration count; every
terminating run of the Rust loop fits in it (see `C9` below). -/
def between_date_as_quarter (start e : NDate) :
    Option (Except PeriodError (List DatePeriod)) :=
  if start.ble e then
    match betweenLoop (from_date_as_quarter e)
        (4 * (i32AsU32 e.year + 2)) (from_date_as_quarter start) with
    | some l => some (.ok l)
    | none => none
  else some (.ok [])

/-- Source `DatePeriod::between_date_as_month`: same loop at month
granularity. -/
def between_date_as_month (start e : NDate) :
    Option (Except PeriodError (List DatePeriod)) :=
  if start.ble e then
    match betweenLoop (from_date_as_month e)
        (12 * (i32AsU32 e.year + 2)) (from_date_as_month start) with
    | some l => some (.ok l)
    | none => none
  else some (.ok [])

/-- Source `DatePeriod::between_date_as_daily`: same loop at day
granularity. -/
def between_date_as_daily (start e : NDate) :
    Option (Except PeriodError (List DatePeriod)) :=
  if start.ble e then
    match betweenLoop (from_date_as_daily e)
        (366 * (i32AsU32 e.year + 2)) (from_date_as_daily start) with
    | some l => some (.ok l)
    | none => none
  else some (.ok [])

end DatePeriod

/-! ## Measures used to characterise the stepping loops -/

/-- Linear position of a quarter period: `4 * year + (quarter - 1)`. -/
def quarterIdx (p : DatePeriod) : Nat :=
  match p with
  | .Quarter y q => 4 * y + (q - 1)
  | _ => 0

/-- Days from year 0 up to the start of year `y`, counted with the day
bounds the source steps by (`maxDaysOf`). -/
def daysBeforeYear : Nat → Nat
  | 0 => 0
  | y + 1 => daysBeforeYear y + maxDaysOf y

/-- Linear position of a daily period: days before its year plus its
(1-based) day, 0-based. -/
def dailyIdx (p : DatePeriod) : Nat :=
  match p with
  | .Daily y d => daysBeforeYear y + (d - 1)
  | _ => 0

/-- The `n`-element chain `p, succP p, succP (succP p), ...`. -/
def succChain (p : DatePeriod) (n : Nat) : List DatePeriod :=
  (List.range n).map (fun i => DatePeriod.succP^[i] p)

/-- Modelled from the spec (section 4.3): the claimed canonical encoding
`YYYYTn` -- the year zero-padded to at least 4 digits, the tag letter, the
index in decimal with no leading zeros, omitted for `Year`. -/
def specEncode : DatePeriod → List Char
  | .Year y => List.replicate (4 - (natDigits y).length) '0' ++ natDigits y ++ ['Y']
  | .Quarter y q =>
      List.replicate (4 - (natDigits y).length) '0' ++ natDigits y ++ 'Q' :: natDigits q
  | .Month y m =>
      List.replicate (4 - (natDigits y).length) '0' ++ natDigits y ++ 'M' :: natDigits m
  | .Daily y d =>
      List.replicate (4 - (natDigits y).length) '0' ++ natDigits y ++ 'D' :: natDigits d

/-- Decidable equality of results (not provided by the core library). -/
instance {ε α : Type} [DecidableEq ε] [DecidableEq α] :
    DecidableEq (Except ε α) := fun a b =>
  match a, b with
  | .ok x, .ok y =>
      if h : x = y then isTrue (by rw [h]) else isFalse (by simp [h])
  | .error x, .error y =>
      if h : x = y then isTrue (by rw [h]) else isFalse (by simp [h])
  | .ok _, .error _ => isFalse (by simp)
  | .error _, .ok _ => isFalse (by simp)

/-! ## Basic lemmas about casts and the leap-year rule -/

lemma u32AsI32_of_lt {y : Nat} (h : y < i32Half) : u32AsI32 y = (y : Int) := by
  simp [u32AsI32, h]

lemma i32AsU32_u32AsI32 {y : Nat} (h : y < u32Mod) :
    i32AsU32 (u32AsI32 y) = y := by
  unfold i32AsU32 u32AsI32 i32Half u32Mod
  unfold u32Mod at h
  split <;> omega

lemma i32AsU32_coe {y : Nat} (h : y < u32Mod) : i32AsU32 (y : Int) = y := by
  unfold i32AsU32 u32Mod
  unfold u32Mod at h
  omega

lemma i32AsU32_nonneg_small {x : Int} (h0 : 0 ≤ x) (h1 : x < (i32Half : Int)) :
    i32AsU32 x = x.toNat := by
  unfold i32AsU32 i32Half at *
  unfold u32Mod
  omega

lemma leap_year_eq_true_iff (x : Int) :
    leap_year x = true ↔ ((4 ∣ x ∧ ¬ (100 ∣ x)) ∨ 400 ∣ x) := by
  simp only [leap_year, Bool.or_eq_true, Bool.and_eq_true, beq_iff_eq,
    bne_iff_ne, ne_eq, Int.emod_emod_of_dvd]
  constructor
  · rintro (⟨h4, h100⟩ | h400)
    · exact Or.inl ⟨Int.dvd_of_emod_eq_zero h4,
        fun hd => h100 (Int.emod_eq_zero_of_dvd hd)⟩
    · exact Or.inr (Int.dvd_of_emod_eq_zero h400)
  · rintro (⟨h4, h100⟩ | h400)
    · exact Or.inl ⟨Int.emod_eq_zero_of_dvd h4,
        fun hm => h100 (Int.dvd_of_emod_eq_zero hm)⟩
    · exact Or.inr (Int.emod_eq_zero_of_dvd h400)

lemma IsLeapYearSpec_eq_true_iff (y : Nat) :
    IsLeapYearSpec y = true ↔ ((4 ∣ y ∧ ¬ (100 ∣ y)) ∨ 400 ∣ y) := by
  simp only [IsLeapYearSpec, Bool.or_eq_true, Bool.and_eq_true, beq_iff_eq,
    bne_iff_ne, ne_eq]
  constructor
  · rintro (⟨h4, h100⟩ | h400)
    · exact Or.inl ⟨Nat.dvd_iff_mod_eq_zero.mpr h4,
        fun hd => h100 (Nat.dvd_iff_mod_eq_zero.mp hd)⟩
    · exact Or.inr (Nat.dvd_iff_mod_eq_zero.mpr h400)
  · rintro (⟨h4, h100⟩ | h400)
    · exact Or.inl ⟨Nat.dvd_iff_mod_eq_zero.mp h4,
        fun hm => h100 (Nat.dvd_iff_mod_eq_zero.mpr hm)⟩
    · exact Or.inr (Nat.dvd_iff_mod_eq_zero.mp h400)

lemma leap_year_coe (y : Nat) : leap_year (y : Int) = IsLeapYearSpec y := by
  rw [Bool.eq_iff_iff, leap_year_eq_true_iff, IsLeapYearSpec_eq_true_iff]
  constructor
  · rintro (⟨h4, h100⟩ | h400)
    · exact Or.inl ⟨by exact_mod_cast h4, fun hd => h100 (by exact_mod_cast hd)⟩
    · exact Or.inr (by exact_mod_cast h400)
  · rintro (⟨h4, h100⟩ | h400)
    · exact Or.inl ⟨by exact_mod_cast h4, fun hd => h100 (by exact_mod_cast hd)⟩
    · exact Or.inr (by exact_mod_cast h400)

lemma maxDaysOf_eq_spec {y : Nat} (h : y < i32Half) :
    maxDaysOf y = if IsLeapYearSpec y then 366 else 365 := by
  rw [maxDaysOf, u32AsI32_of_lt h, leap_year_coe]

lemma maxDaysOf_bounds (y : Nat) : 365 ≤ maxDaysOf y ∧ maxDaysOf y ≤ 366 := by
  unfold maxDaysOf
  split <;> omega

namespace DatePeriod

lemma wf_year_iff {y : Nat} : (DatePeriod.Year y).wf = true ↔ y < u32Mod := by
  simp [wf, Nat.blt_eq]

lemma wf_quarter_iff {y q : Nat} :
    (DatePeriod.Quarter y q).wf = true ↔ y < u32Mod ∧ 1 ≤ q ∧ q ≤ 4 := by
  simp only [wf, Bool.and_eq_true, Nat.blt_eq, Nat.ble_eq]
  tauto

lemma wf_month_iff {y m : Nat} :
    (DatePeriod.Month y m).wf = true ↔ y < u32Mod ∧ 1 ≤ m ∧ m ≤ 12 := by
  simp only [wf, Bool.and_eq_true, Nat.blt_eq, Nat.ble_eq]
  tauto

lemma wf_daily_iff {y d : Nat} :
    (DatePeriod.Daily y d).wf = true ↔ y < u32Mod ∧ 1 ≤ d ∧ d ≤ maxDaysOf y := by
  simp only [wf, Bool.and_eq_true, Nat.blt_eq, Nat.ble_eq]
  tauto

lemma quarter_ok_of_bounds {y q : Nat} (h1 : 1 ≤ q) (h2 : q ≤ 4) :
    DatePeriod.quarter y q = .ok (.Quarter y q) := by
  simp [quarter, h1, h2]

lemma month_ok_of_bounds {y m : Nat} (h1 : 1 ≤ m) (h2 : m ≤ 12) :
    DatePeriod.month y m = .ok (.Month y m) := by
  simp [month, h1, h2]

lemma daily_ok_of_bounds {y d : Nat} (h1 : 1 ≤ d) (h2 : d ≤ maxDaysOf y) :
    DatePeriod.daily y d = .ok (.Daily y d) := by
  unfold daily
  rw [if_neg (by omega), if_neg (by omega)]

end DatePeriod

/-! ## Lemmas about decimal rendering -/

lemma digitChar_toNat {k : Nat} (h : k < 10) : (digitChar k).toNat = 48 + k := by
  interval_cases k <;> decide

lemma natDigitsAux_fuel_irrel :
    ∀ {f1 : Nat} {n f2 : Nat}, n < f1 → n < f2 →
      natDigitsAux f1 n = natDigitsAux f2 n := by
  intro f1
  induction f1 with
  | zero => omega
  | succ f ih =>
    intro n f2 h1 h2
    cases f2 with
    | zero => omega
    | succ g =>
      rw [natDigitsAux, natDigitsAux]
      by_cases h10 : n < 10
      · simp [h10]
      · rw [if_neg h10, if_neg h10,
          ih (show n / 10 < f by omega) (show n / 10 < g by omega)]

lemma natDigits_lt10 {n : Nat} (h : n < 10) : natDigits n = [digitChar n] := by
  rw [natDigits, natDigitsAux]
  simp [h]

lemma natDigits_step {n : Nat} (h : 10 ≤ n) :
    natDigits n = natDigits (n / 10) ++ [digitChar (n % 10)] := by
  rw [natDigits, natDigits, natDigitsAux, if_neg (Nat.not_lt.mpr h),
    natDigitsAux_fuel_irrel (show n / 10 < n by omega) (Nat.lt_succ_self _)]

lemma natDigits_ne_nil (n : Nat) : natDigits n ≠ [] := by
  by_cases h : n < 10
  · rw [natDigits_lt10 h]
    simp
  · rw [natDigits_step (by omega)]
    simp

lemma natDigits_all_digit (n : Nat) :
    ∀ c ∈ natDigits n, isAsciiDigit c = true := by
  induction n using Nat.strong_induction_on with
  | _ n ih =>
    by_cases h : n < 10
    · rw [natDigits_lt10 h]
      intro c hc
      simp only [List.mem_singleton] at hc
      subst hc
      simp only [isAsciiDigit, digitChar_toNat h, decide_eq_true_eq]
      omega
    · rw [natDigits_step (by omega)]
      intro c hc
      rcases List.mem_append.mp hc with h1 | h2
      · exact ih (n / 10) (Nat.div_lt_self (by omega) (by omega)) c h1
      · simp only [List.mem_singleton] at h2
        subst h2
        simp only [isAsciiDigit, digitChar_toNat (Nat.mod_lt n (by omega)),
          decide_eq_true_eq]
        omega

lemma digitsVal_append (xs : List Char) (c : Char) :
    digitsVal (xs ++ [c]) = digitsVal xs * 10 + (c.toNat - 48) := by
  unfold digitsVal
  rw [List.foldl_append]
  rfl

lemma natDigits_val (n : Nat) : digitsVal (natDigits n) = n := by
  induction n using Nat.strong_induction_on with
  | _ n ih =>
    by_cases h : n < 10
    · rw [natDigits_lt10 h]
      unfold digitsVal
      simp only [List.foldl_cons, List.foldl_nil, digitChar_toNat h]
      omega
    · rw [natDigits_step (by omega), digitsVal_append,
        ih (n / 10) (Nat.div_lt_self (by omega) (by omega)),
        digitChar_toNat (Nat.mod_lt n (by omega))]
      omega

lemma natDigits_length_le {n k : Nat} (hk : 1 ≤ k) (h : n < 10 ^ k) :
    (natDigits n).length ≤ k := by
  induction k generalizing n with
  | zero => omega
  | succ k ih =>
    by_cases h10 : n < 10
    · rw [natDigits_lt10 h10]
      simp
    · rw [natDigits_step (by omega)]
      have hk1 : 1 ≤ k := by
        rcases Nat.eq_zero_or_pos k with hk0 | hk0
        · subst hk0
          simp at h
          omega
        · exact hk0
      have hdiv : n / 10 < 10 ^ k := by
        rw [pow_succ] at h
        omega
      have := ih hk1 hdiv
      simp only [List.length_append, List.length_singleton]
      omega

lemma natDigits_length_ge {n k : Nat} (h : 10 ^ k ≤ n) :
    k + 1 ≤ (natDigits n).length := by
  induction k generalizing n with
  | zero =>
    have := natDigits_ne_nil n
    cases hc : natDigits n with
    | nil => exact absurd hc this
    | cons a l => simp
  | succ k ih =>
    have h10 : 10 ≤ n := by
      calc 10 = 10 ^ 1 := by norm_num
      _ ≤ 10 ^ (k + 1) := Nat.pow_le_pow_right (by omega) (by omega)
      _ ≤ n := h
    rw [natDigits_step h10]
    have hdiv : 10 ^ k ≤ n / 10 := by
      rw [pow_succ] at h
      omega
    have := ih hdiv
    simp only [List.length_append, List.length_singleton]
    omega

lemma natDigits_length_four {n : Nat} (h1 : 1000 ≤ n) (h2 : n ≤ 9999) :
    (natDigits n).length = 4 := by
  have hle := natDigits_length_le (by omega) (show n < 10 ^ 4 by norm_num; omega)
  have hge := natDigits_length_ge (show 10 ^ 3 ≤ n by norm_num; omega)
  omega

lemma isAsciiDigit_ne_plus {c : Char} (h : isAsciiDigit c = true) : ¬ (c = '+') := by
  intro he
  subst he
  exact absurd h (by decide)

lemma dropPlusSign_of_digits {cs : List Char}
    (h : ∀ c ∈ cs, isAsciiDigit c = true) : dropPlusSign cs = cs := by
  cases cs with
  | nil => rfl
  | cons c rest =>
    show (if c = '+' then rest else c :: rest) = c :: rest
    rw [if_neg (isAsciiDigit_ne_plus (h c (by simp)))]

lemma parseU32_natDigits {n : Nat} (h : n < u32Mod) :
    parseU32 (natDigits n) = some n := by
  unfold parseU32
  rw [dropPlusSign_of_digits (natDigits_all_digit n), natDigits_val,
    if_neg (by simp [natDigits_ne_nil n]),
    if_pos (List.all_eq_true.mpr (natDigits_all_digit n)), if_pos h]

/-! ## Lemmas about bytes, ASCII and trimming -/

lemma utf8Len_of_ascii {c : Char} (h : c.toNat < 128) : utf8Len c = 1 := by
  simp [utf8Len, h]

lemma isAsciiDigit_ascii {c : Char} (h : isAsciiDigit c = true) : c.toNat < 128 := by
  simp only [isAsciiDigit, decide_eq_true_eq] at h
  omega

lemma not_ws_of_printable {c : Char} (h1 : 33 ≤ c.toNat) (h2 : c.toNat ≤ 126) :
    isRustWhitespace c = false := by
  simp only [isRustWhitespace, decide_eq_false_iff_not]
  omega

lemma isAsciiDigit_not_ws {c : Char} (h : isAsciiDigit c = true) :
    isRustWhitespace c = false := by
  simp only [isAsciiDigit, decide_eq_true_eq] at h
  exact not_ws_of_printable (by omega) (by omega)

lemma byteLen_nil : byteLen [] = 0 := rfl

lemma byteLen_cons (c : Char) (s : List Char) :
    byteLen (c :: s) = utf8Len c + byteLen s := by
  simp [byteLen]

lemma byteLen_ascii {s : List Char} (h : ∀ c ∈ s, c.toNat < 128) :
    byteLen s = s.length := by
  induction s with
  | nil => rfl
  | cons c cs ih =>
    rw [byteLen_cons, utf8Len_of_ascii (h c (by simp)),
      ih (fun x hx => h x (by simp [hx]))]
    simp [List.length_cons]
    omega

lemma takeBytes_of_ascii {n : Nat} :
    ∀ {s : List Char}, (∀ c ∈ s.take n, c.toNat < 128) → n ≤ s.length →
      takeBytes n s = some (s.take n, s.drop n) := by
  induction n with
  | zero =>
    intro s _ _
    rw [takeBytes]
    simp
  | succ n ih =>
    intro s h hn
    cases s with
    | nil => simp at hn
    | cons c cs =>
      have hc : utf8Len c = 1 :=
        utf8Len_of_ascii (h c (by simp [List.take_succ_cons]))
      rw [takeBytes, hc, if_pos (by omega)]
      have hsub : ∀ x ∈ cs.take n, x.toNat < 128 := by
        intro x hx
        exact h x (by simp [List.take_succ_cons, hx])
      have hlen : n ≤ cs.length := by
        simp [List.length_cons] at hn
        omega
      rw [show n + 1 - 1 = n by omega, ih hsub hlen]
      simp [List.take_succ_cons, List.drop_succ_cons]

lemma dropWhile_ws_eq_self_of_not {s : List Char}
    (h : ∀ c ∈ s, isRustWhitespace c = false) :
    s.dropWhile isRustWhitespace = s := by
  cases s with
  | nil => rfl
  | cons c cs => simp [List.dropWhile_cons, h c (List.mem_cons_self c cs)]

lemma strTrim_of_no_ws {s : List Char}
    (h : ∀ c ∈ s, isRustWhitespace c = false) : strTrim s = s := by
  unfold strTrim trimStart trimEnd
  rw [dropWhile_ws_eq_self_of_not h]
  rw [List.rdropWhile_eq_self_iff.mpr]
  intro hl
  simp [h _ (List.getLast_mem hl)]

lemma strTrim_idem (s : List Char) : strTrim (strTrim s) = strTrim s := by
  unfold strTrim trimStart trimEnd
  have h1 : (((s.dropWhile isRustWhitespace).rdropWhile
      isRustWhitespace).dropWhile isRustWhitespace) =
      (s.dropWhile isRustWhitespace).rdropWhile isRustWhitespace := by
    rw [List.dropWhile_eq_self_iff]
    intro hl
    have hpre : (s.dropWhile isRustWhitespace).rdropWhile isRustWhitespace <+:
        s.dropWhile isRustWhitespace := List.rdropWhile_prefix _ _
    rw [List.IsPrefix.get_eq hpre hl]
    exact List.dropWhile_get_zero_not isRustWhitespace s
      (lt_of_lt_of_le hl hpre.length_le)
  rw [h1, List.rdropWhile_idempotent]

/-! ## Unfolding `parse` on a rendered period -/

lemma takeBytes_one {c : Char} (h : c.toNat < 128) (cs : List Char) :
    takeBytes 1 (c :: cs) = some ([c], cs) := by
  rw [takeBytes, utf8Len_of_ascii h, if_pos (by omega)]
  rw [show (0 + 1 - 1 : Nat) = 0 by omega, takeBytes]

lemma natDigits_ascii (n : Nat) : ∀ c ∈ natDigits n, c.toNat < 128 :=
  fun c hc => isAsciiDigit_ascii (natDigits_all_digit n c hc)

lemma parse_digits_core (y : Nat) (t : Char) (tail : List Char)
    (hy1 : 1000 ≤ y) (hy2 : y ≤ 9999)
    (ht1 : 64 ≤ t.toNat) (ht2 : t.toNat ≤ 90)
    (htail : ∀ c ∈ tail, isAsciiDigit c = true) :
    DatePeriod.parse (natDigits y ++ t :: tail) =
      (if t = 'Y' then
        (if tail.length ≠ 0 then some (.error .yearFormatLength)
         else some (.ok (DatePeriod.year y)))
      else if t = 'Q' then
        (if tail.length = 0 then some (.error .missingIndex)
         else match parseU32 tail with
           | none => some (.error .invalidIndex)
           | some idx => some (DatePeriod.quarter y idx))
      else if t = 'M' then
        (if tail.length = 0 then some (.error .missingIndex)
         else match parseU32 tail with
           | none => some (.error .invalidIndex)
           | some idx => some (DatePeriod.month y idx))
      else if t = 'D' then
        (if tail.length = 0 then some (.error .missingIndex)
         else match parseU32 tail with
           | none => some (.error .invalidIndex)
           | some idx => some (DatePeriod.daily y idx))
      else some (.error .invalidPeriodType)) := by
  have hndasc := natDigits_ascii y
  have htasc : t.toNat < 128 := by omega
  have hasc : ∀ c ∈ natDigits y ++ t :: tail, c.toNat < 128 := by
    intro c hc
    rcases List.mem_append.mp hc with h | h
    · exact hndasc c h
    · rcases List.mem_cons.mp h with h | h
      · subst h; exact htasc
      · exact isAsciiDigit_ascii (htail c h)
  have hnws : ∀ c ∈ natDigits y ++ t :: tail, isRustWhitespace c = false := by
    intro c hc
    rcases List.mem_append.mp hc with h | h
    · exact isAsciiDigit_not_ws (natDigits_all_digit y c h)
    · rcases List.mem_cons.mp h with h | h
      · subst h; exact not_ws_of_printable (by omega) (by omega)
      · exact isAsciiDigit_not_ws (htail c h)
  have h4 : (natDigits y).length = 4 := natDigits_length_four hy1 hy2
  have hlen : (natDigits y ++ t :: tail).length = 5 + tail.length := by
    simp [List.length_append, h4]
    omega
  have hbl : byteLen (natDigits y ++ t :: tail) = 5 + tail.length := by
    rw [byteLen_ascii hasc, hlen]
  have htake : (natDigits y ++ t :: tail).take 4 = natDigits y := by
    rw [← h4]
    exact List.take_left _ _
  have hdrop : (natDigits y ++ t :: tail).drop 4 = t :: tail := by
    rw [← h4]
    exact List.drop_left _ _
  have htb4 : takeBytes 4 (natDigits y ++ t :: tail) =
      some (natDigits y, t :: tail) := by
    rw [takeBytes_of_ascii (fun c hc => hasc c (List.take_subset _ _ hc))
      (by rw [hlen]; omega), htake, hdrop]
  have htb1 : takeBytes 1 (t :: tail) = some ([t], tail) := takeBytes_one htasc tail
  simp only [DatePeriod.parse]
  rw [strTrim_of_no_ws hnws, hbl, if_neg (by omega), htb4]
  simp only [parseU32_natDigits (show y < u32Mod by unfold u32Mod; omega), htb1]
  by_cases hty : t = 'Y'
  · subst hty
    rw [if_pos rfl, if_pos rfl]
    by_cases h0 : tail.length = 0
    · rw [if_neg (by omega), if_neg (by omega)]
    · rw [if_pos (by omega), if_pos h0]
  · rw [if_neg (by simp [hty]), if_neg hty]
    by_cases htq : t = 'Q'
    · subst htq
      rw [if_pos rfl, if_pos rfl]
      by_cases h0 : tail.length = 0
      · rw [if_pos (by omega), if_pos h0]
      · rw [if_neg (by omega), if_neg h0]
    · rw [if_neg (by simp [htq]), if_neg htq]
      by_cases htm : t = 'M'
      · subst htm
        rw [if_pos rfl, if_pos rfl]
        by_cases h0 : tail.length = 0
        · rw [if_pos (by omega), if_pos h0]
        · rw [if_neg (by omega), if_neg h0]
      · rw [if_neg (by simp [htm]), if_neg htm]
        by_cases htd : t = 'D'
        · subst htd
          rw [if_pos rfl, if_pos rfl]
          by_cases h0 : tail.length = 0
          · rw [if_pos (by omega), if_pos h0]
          · rw [if_neg (by omega), if_neg h0]
        · rw [if_neg (by simp [htd]), if_neg htd]

/-! ## Calendar lemmas -/

lemma daysInMonthG_le_31 (y : Int) (m : Nat) : daysInMonthG y m ≤ 31 := by
  unfold daysInMonthG
  split <;> first | omega | (split <;> omega)

lemma daysBeforeMonthG_two (y : Int) : daysBeforeMonthG y 2 = 31 := rfl

lemma monthOfDayOfYear_of_le31 (y : Int) {d : Nat} (h1 : 1 ≤ d)
    (h31 : d ≤ 31) : monthOfDayOfYear y d = 1 := by
  unfold monthOfDayOfYear
  rw [show (List.range 12) = 0 :: [1, 2, 3, 4, 5, 6, 7, 8, 9, 10, 11] from rfl,
    List.find?_cons_of_pos]
  · simp only [decide_eq_true_eq]
    rw [show (0 : Nat) + 2 = 2 from rfl, daysBeforeMonthG_two]
    omega

/-! ## Characterising the between-dates stepping loop -/

lemma succChain_zero (p : DatePeriod) : succChain p 0 = [] := rfl

lemma succChain_cons (p : DatePeriod) (n : Nat) :
    succChain p (n + 1) = p :: succChain p.succP n := by
  unfold succChain
  rw [List.range_succ_eq_map, List.map_cons, List.map_map]
  congr 1

lemma betweenLoop_chain (endP : DatePeriod) (μ : DatePeriod → Nat)
    (inv : DatePeriod → Prop)
    (hble : ∀ p, inv p → ((p.ble endP = true) ↔ μ p ≤ μ endP))
    (hsucc : ∀ p, inv p → μ p ≤ μ endP → (inv p.succP ∧ μ p.succP = μ p + 1)) :
    ∀ (n fuel : Nat) (p : DatePeriod), inv p →
      μ endP + 1 - μ p = n → n + 1 ≤ fuel →
      DatePeriod.betweenLoop endP fuel p = some (succChain p n) := by
  intro n
  induction n with
  | zero =>
    intro fuel p hp hn hf
    cases fuel with
    | zero => omega
    | succ f =>
      rw [DatePeriod.betweenLoop, if_neg, succChain_zero]
      rw [hble p hp]
      omega
  | succ n ih =>
    intro fuel p hp hn hf
    cases fuel with
    | zero => omega
    | succ f =>
      have hle : μ p ≤ μ endP := by omega
      obtain ⟨hinv2, hstep⟩ := hsucc p hp hle
      rw [DatePeriod.betweenLoop, if_pos ((hble p hp).mpr hle),
        ih f p.succP hinv2 (by omega) (by omega), succChain_cons]

lemma ble_quarter_iff {y1 q1 y2 q2 : Nat}
    (ha1 : 1 ≤ q1) (ha4 : q1 ≤ 4) (hb1 : 1 ≤ q2) (hb4 : q2 ≤ 4) :
    ((DatePeriod.Quarter y1 q1).ble (.Quarter y2 q2) = true) ↔
      4 * y1 + (q1 - 1) ≤ 4 * y2 + (q2 - 1) := by
  simp only [DatePeriod.ble, DatePeriod.rank, DatePeriod.get_year,
    DatePeriod.keyI, Bool.or_eq_true, Bool.and_eq_true, Nat.blt_eq,
    Nat.ble_eq, Nat.beq_eq, lt_self_iff_false, false_or, true_and]
  omega

lemma daysBeforeYear_mono {a b : Nat} (h : a ≤ b) :
    daysBeforeYear a ≤ daysBeforeYear b := by
  induction b with
  | zero =>
    have ha : a = 0 := by omega
    subst ha
    exact le_refl _
  | succ b ih =>
    rcases Nat.lt_or_ge a (b + 1) with hl | hg
    · calc daysBeforeYear a ≤ daysBeforeYear b := ih (by omega)
      _ ≤ daysBeforeYear b + maxDaysOf b := Nat.le_add_right _ _
      _ = daysBeforeYear (b + 1) := rfl
    · have ha : a = b + 1 := by omega
      subst ha
      exact le_refl _

lemma ble_daily_iff {y1 d1 y2 d2 : Nat}
    (ha1 : 1 ≤ d1) (ham : d1 ≤ maxDaysOf y1)
    (hb1 : 1 ≤ d2) (hbm : d2 ≤ maxDaysOf y2) :
    ((DatePeriod.Daily y1 d1).ble (.Daily y2 d2) = true) ↔
      daysBeforeYear y1 + (d1 - 1) ≤ daysBeforeYear y2 + (d2 - 1) := by
  have hA : y1 < y2 → daysBeforeYear y1 + maxDaysOf y1 ≤ daysBeforeYear y2 := by
    intro h
    calc daysBeforeYear y1 + maxDaysOf y1 = daysBeforeYear (y1 + 1) := rfl
    _ ≤ daysBeforeYear y2 := daysBeforeYear_mono (by omega)
  have hB : y2 < y1 → daysBeforeYear y2 + maxDaysOf y2 ≤ daysBeforeYear y1 := by
    intro h
    calc daysBeforeYear y2 + maxDaysOf y2 = daysBeforeYear (y2 + 1) := rfl
    _ ≤ daysBeforeYear y1 := daysBeforeYear_mono (by omega)
  have hEq : y1 = y2 → daysBeforeYear y1 = daysBeforeYear y2 := by
    intro h
    rw [h]
  simp only [DatePeriod.ble, DatePeriod.rank, DatePeriod.get_year,
    DatePeriod.keyI, Bool.or_eq_true, Bool.and_eq_true, Nat.blt_eq,
    Nat.ble_eq, Nat.beq_eq, lt_self_iff_false, false_or, true_and]
  omega

lemma quarter_loop {ys qs ye qe fuel : Nat}
    (hqs1 : 1 ≤ qs) (hqs4 : qs ≤ 4) (hqe1 : 1 ≤ qe) (hqe4 : qe ≤ 4)
    (hys : ys ≤ ye) (hye : ye < i32Half)
    (hfuel : 4 * ye + qe + 1 ≤ fuel) :
    DatePeriod.betweenLoop (.Quarter ye qe) fuel (.Quarter ys qs) =
      some (succChain (.Quarter ys qs)
        (quarterIdx (.Quarter ye qe) + 1 - quarterIdx (.Quarter ys qs))) := by
  refine betweenLoop_chain _ quarterIdx
    (fun p => ∃ y q, p = .Quarter y q ∧ 1 ≤ q ∧ q ≤ 4 ∧ y ≤ ye + 1)
    ?_ ?_ _ fuel _ ⟨ys, qs, rfl, hqs1, hqs4, by omega⟩ rfl ?_
  · rintro p ⟨y, q, rfl, h1, h4, hy⟩
    simp only [quarterIdx]
    exact ble_quarter_iff h1 h4 hqe1 hqe4
  · rintro p ⟨y, q, rfl, h1, h4, hy⟩ hμ
    simp only [quarterIdx] at hμ
    have hyye : y ≤ ye := by omega
    simp only [DatePeriod.succP]
    by_cases h : q < 4
    · rw [if_pos h]
      exact ⟨⟨y, q + 1, rfl, by omega, by omega, by omega⟩,
        by simp only [quarterIdx]; omega⟩
    · rw [if_neg h]
      rw [Nat.mod_eq_of_lt (show y + 1 < u32Mod by
        unfold u32Mod; unfold i32Half at hye; omega)]
      exact ⟨⟨y + 1, 1, rfl, by omega, by omega, by omega⟩,
        by simp only [quarterIdx]; omega⟩
  · simp only [quarterIdx]
    omega

lemma daily_loop {ys ds ye de fuel : Nat}
    (hds1 : 1 ≤ ds) (hdsm : ds ≤ maxDaysOf ys)
    (hde1 : 1 ≤ de) (hdem : de ≤ maxDaysOf ye)
    (hys : ys ≤ ye) (hye : ye < i32Half)
    (hfuel : daysBeforeYear ye + de + 1 ≤ fuel) :
    DatePeriod.betweenLoop (.Daily ye de) fuel (.Daily ys ds) =
      some (succChain (.Daily ys ds)
        (dailyIdx (.Daily ye de) + 1 - dailyIdx (.Daily ys ds))) := by
  refine betweenLoop_chain _ dailyIdx
    (fun p => ∃ y d, p = .Daily y d ∧ 1 ≤ d ∧ d ≤ maxDaysOf y ∧ y ≤ ye + 1)
    ?_ ?_ _ fuel _ ⟨ys, ds, rfl, hds1, hdsm, by omega⟩ rfl ?_
  · rintro p ⟨y, d, rfl, h1, hm, hy⟩
    simp only [dailyIdx]
    exact ble_daily_iff h1 hm hde1 hdem
  · rintro p ⟨y, d, rfl, h1, hm, hy⟩ hμ
    simp only [dailyIdx] at hμ
    have hyye : y ≤ ye := by
      by_contra hc
      push_neg at hc
      have h2 : daysBeforeYear ye + maxDaysOf ye ≤ daysBeforeYear y := by
        calc daysBeforeYear ye + maxDaysOf ye = daysBeforeYear (ye + 1) := rfl
        _ ≤ daysBeforeYear y := daysBeforeYear_mono (by omega)
      omega
    simp only [DatePeriod.succP]
    by_cases h : d < maxDaysOf y
    · rw [if_pos h]
      exact ⟨⟨y, d + 1, rfl, by omega, by omega, by omega⟩,
        by simp only [dailyIdx]; omega⟩
    · rw [if_neg h]
      rw [Nat.mod_eq_of_lt (show y + 1 < u32Mod by
        unfold u32Mod; unfold i32Half at hye; omega)]
      refine ⟨⟨y + 1, 1, rfl, by omega,
        (by have := maxDaysOf_bounds (y + 1); omega), by omega⟩, ?_⟩
      simp only [dailyIdx]
      have hstep : daysBeforeYear (y + 1) = daysBeforeYear y + maxDaysOf y := rfl
      omega
  · simp only [dailyIdx]
    omega

lemma NDate.valid_iff {d : NDate} : d.valid = true ↔
    1 ≤ d.month ∧ d.month ≤ 12 ∧ 1 ≤ d.day ∧
      d.day ≤ daysInMonthG d.year d.month := by
  simp only [NDate.valid, Bool.and_eq_true, Nat.ble_eq]
  tauto

lemma NDate.ble_year_le {a b : NDate} (h : NDate.ble a b = true) :
    a.year ≤ b.year := by
  simp only [NDate.ble, Bool.or_eq_true, Bool.and_eq_true, decide_eq_true_eq,
    Nat.blt_eq, Nat.ble_eq, Nat.beq_eq, beq_iff_eq] at h
  rcases h with h | ⟨h, _⟩ <;> omega

lemma daysBeforeMonthG_13 (y : Int) :
    daysBeforeMonthG y 13 = if leap_year y then 366 else 365 := by
  by_cases h : leap_year y = true
  · simp [daysBeforeMonthG, daysInMonthG, h]
  · simp only [Bool.not_eq_true] at h
    simp [daysBeforeMonthG, daysInMonthG, h]

lemma daysBeforeMonthG_le_succ (y : Int) (m : Nat) :
    daysBeforeMonthG y m ≤ daysBeforeMonthG y (m + 1) := by
  cases m with
  | zero => simp [daysBeforeMonthG]
  | succ m => exact Nat.le_add_right _ _

lemma daysBeforeMonthG_mono (y : Int) {a b : Nat} (h : a ≤ b) :
    daysBeforeMonthG y a ≤ daysBeforeMonthG y b := by
  induction b with
  | zero =>
    have ha : a = 0 := by omega
    subst ha
    exact le_refl _
  | succ b ih =>
    rcases Nat.lt_or_ge a (b + 1) with hl | hg
    · exact le_trans (ih (by omega)) (daysBeforeMonthG_le_succ y b)
    · have ha : a = b + 1 := by omega
      subst ha
      exact le_refl _

lemma daysBeforeMonthG_succ_eq {y : Int} {m : Nat} (h : 1 ≤ m) :
    daysBeforeMonthG y (m + 1) = daysBeforeMonthG y m + daysInMonthG y m := by
  obtain ⟨k, rfl⟩ : ∃ k, m = k + 1 := ⟨m - 1, by omega⟩
  rfl

lemma ordinal_bounds {d : NDate} (hv : d.valid = true) :
    1 ≤ d.ordinal ∧ d.ordinal ≤ (if leap_year d.year then 366 else 365) := by
  obtain ⟨hm1, hm12, hd1, hdm⟩ := NDate.valid_iff.mp hv
  constructor
  · unfold NDate.ordinal
    omega
  · rw [← daysBeforeMonthG_13]
    calc d.ordinal = daysBeforeMonthG d.year d.month + d.day := rfl
    _ ≤ daysBeforeMonthG d.year d.month + daysInMonthG d.year d.month := by
        omega
    _ = daysBeforeMonthG d.year (d.month + 1) :=
        (daysBeforeMonthG_succ_eq hm1).symm
    _ ≤ daysBeforeMonthG d.year 13 := daysBeforeMonthG_mono _ (by omega)

lemma u32AsI32_i32AsU32_nonneg {x : Int} (h0 : 0 ≤ x)
    (hh : x < (i32Half : Int)) : u32AsI32 (i32AsU32 x) = x := by
  unfold u32AsI32 i32AsU32 i32Half u32Mod at *
  split <;> omega

lemma i32AsU32_le_of_le {x z : Int} (h0 : 0 ≤ x) (hxz : x ≤ z)
    (hz : z < (i32Half : Int)) :
    i32AsU32 x ≤ i32AsU32 z ∧ i32AsU32 z < i32Half := by
  unfold i32AsU32 i32Half u32Mod at *
  omega

lemma daysBeforeYear_le (y : Nat) : daysBeforeYear y ≤ 366 * y := by
  induction y with
  | zero => simp [daysBeforeYear]
  | succ y ih =>
    have hb := (maxDaysOf_bounds y).2
    calc daysBeforeYear (y + 1) = daysBeforeYear y + maxDaysOf y := rfl
    _ ≤ 366 * y + 366 := by omega
    _ = 366 * (y + 1) := by ring

/-! ## The claims -/

/-- Claim C1 (corrected): the round-trip law `parse(to_string(P)) == Ok(P)`
holds for every validly constructed period whose year has exactly four
decimal digits (1000..9999). Outside that band it fails, because `Display`
does not zero-pad the year while `parse` reads the year from the fixed byte
range 0..4 (see `C1_counterexample`). -/
theorem C1_roundtrip (P : DatePeriod) (hwf : P.wf = true)
    (hy1 : 1000 ≤ P.get_year) (hy2 : P.get_year ≤ 9999) :
    DatePeriod.parse P.display = some (.ok P) := by
  cases P with
  | Year y =>
    simp only [DatePeriod.get_year] at hy1 hy2
    have hcore := parse_digits_core y 'Y' [] hy1 hy2 (by decide) (by decide)
      (by simp)
    simp only [DatePeriod.display]
    rw [show (natDigits y ++ ['Y']) = natDigits y ++ 'Y' :: [] from rfl, hcore]
    rw [if_pos rfl, if_neg (by simp)]
    rfl
  | Quarter y q =>
    simp only [DatePeriod.get_year] at hy1 hy2
    rcases DatePeriod.wf_quarter_iff.mp hwf with ⟨hyu, hq1, hq4⟩
    have hcore := parse_digits_core y 'Q' (natDigits q) hy1 hy2 (by decide)
      (by decide) (natDigits_all_digit q)
    simp only [DatePeriod.display]
    rw [hcore, if_neg (by decide), if_pos rfl,
      if_neg (fun h => natDigits_ne_nil q (List.length_eq_zero.mp h)),
      parseU32_natDigits (show q < u32Mod by unfold u32Mod; omega)]
    show some (DatePeriod.quarter y q) = _
    rw [DatePeriod.quarter_ok_of_bounds hq1 hq4]
  | Month y m =>
    simp only [DatePeriod.get_year] at hy1 hy2
    rcases DatePeriod.wf_month_iff.mp hwf with ⟨hyu, hm1, hm12⟩
    have hcore := parse_digits_core y 'M' (natDigits m) hy1 hy2 (by decide)
      (by decide) (natDigits_all_digit m)
    simp only [DatePeriod.display]
    rw [hcore, if_neg (by decide), if_neg (by decide), if_pos rfl,
      if_neg (fun h => natDigits_ne_nil m (List.length_eq_zero.mp h)),
      parseU32_natDigits (show m < u32Mod by unfold u32Mod; omega)]
    show some (DatePeriod.month y m) = _
    rw [DatePeriod.month_ok_of_bounds hm1 hm12]
  | Daily y d =>
    simp only [DatePeriod.get_year] at hy1 hy2
    rcases DatePeriod.wf_daily_iff.mp hwf with ⟨hyu, hd1, hdm⟩
    have hcore := parse_digits_core y 'D' (natDigits d) hy1 hy2 (by decide)
      (by decide) (natDigits_all_digit d)
    simp only [DatePeriod.display]
    rw [hcore, if_neg (by decide), if_neg (by decide), if_neg (by decide),
      if_pos rfl,
      if_neg (fun h => natDigits_ne_nil d (List.length_eq_zero.mp h)),
      parseU32_natDigits (show d < u32Mod by
        rcases maxDaysOf_bounds y with ⟨_, hb⟩
        unfold u32Mod
        omega)]
    show some (DatePeriod.daily y d) = _
    rw [DatePeriod.daily_ok_of_bounds hd1 hdm]

/-- Witness for C1 at the leap-year boundary value `Daily(2024, 366)`. -/
theorem C1_witness :
    (DatePeriod.Daily 2024 366).wf = true ∧
    DatePeriod.parse (DatePeriod.Daily 2024 366).display =
      some (.ok (.Daily 2024 366)) :=
  ⟨by decide, C1_roundtrip (.Daily 2024 366) (by decide) (by decide)
    (by decide)⟩

/-- Counterexample for C1 as stated: `Year(999)` is validly constructed
(`year` accepts any `u32`), renders as `"999Y"` (4 bytes), and parsing that
rejects it as too short instead of returning the period back. -/
theorem C1_counterexample :
    DatePeriod.parse (DatePeriod.display (.Year 999)) ≠
      some (.ok (.Year 999)) := by decide

/-- Claim C2 (corrected): `Aggregate(Year(y)) == Year(y)` and the
decompose/aggregate inverse law hold for `Year` and `Quarter` parents, but
the children of `Month(y, m)` are `Daily(y, 1) .. Daily(y, days-in-month)`
-- day-of-month indices stored in the day-of-year field -- so every such
child aggregates to `Month(y, 1)`, and the inverse law holds for a `Month`
parent only when `m = 1` (see `C2_counterexample`). -/
theorem C2_decompose_aggregate :
    (∀ y : Nat, (DatePeriod.Year y).aggregate = .Year y) ∧
    (∀ y : Nat, ∀ C ∈ (DatePeriod.Year y).decompose, C.aggregate = .Year y) ∧
    (∀ y q : Nat, (DatePeriod.Quarter y q).wf = true →
      ∀ C ∈ (DatePeriod.Quarter y q).decompose, C.aggregate = .Quarter y q) ∧
    (∀ y m : Nat, (DatePeriod.Month y m).wf = true →
      ∀ C ∈ (DatePeriod.Month y m).decompose, C.aggregate = .Month y 1) := by
  refine ⟨fun y => rfl, ?_, ?_, ?_⟩
  · intro y C hC
    simp only [DatePeriod.decompose, List.mem_map, List.mem_range] at hC
    obtain ⟨i, hi, rfl⟩ := hC
    rfl
  · intro y q hwf C hC
    rcases DatePeriod.wf_quarter_iff.mp hwf with ⟨hyu, hq1, hq4⟩
    simp only [DatePeriod.decompose, List.mem_map, List.mem_range] at hC
    obtain ⟨i, hi, rfl⟩ := hC
    simp only [DatePeriod.aggregate]
    congr 1
    omega
  · intro y m hwf C hC
    rcases DatePeriod.wf_month_iff.mp hwf with ⟨hyu, hm1, hm12⟩
    simp only [DatePeriod.decompose, List.mem_map, List.mem_range] at hC
    obtain ⟨d, hd, rfl⟩ := hC
    simp only [DatePeriod.aggregate]
    rw [i32AsU32_u32AsI32 hyu,
      monthOfDayOfYear_of_le31 _ (by omega)
        (by have := daysInMonthG_le_31 (u32AsI32 y) m; omega)]

/-- Witness for C2 at concrete periods of every granularity. -/
theorem C2_witness :
    (DatePeriod.Year 2024).aggregate = .Year 2024 ∧
    (DatePeriod.Quarter 2024 1).aggregate = .Year 2024 ∧
    (DatePeriod.Month 2024 6).aggregate = .Quarter 2024 2 ∧
    (DatePeriod.Daily 2024 3).aggregate = .Month 2024 1 := by
  obtain ⟨h1, h2, h3, h4⟩ := C2_decompose_aggregate
  exact ⟨h1 2024, h2 2024 _ (by decide), h3 2024 2 (by decide) _ (by decide),
    h4 2024 2 (by decide) _ (by decide)⟩

/-- Counterexample for C2 as stated: `Daily(2024, 2)` is a child of
`Month(2024, 2)` under `decompose`, yet aggregates to `Month(2024, 1)`. -/
theorem C2_counterexample :
    (DatePeriod.Daily 2024 2) ∈ (DatePeriod.Month 2024 2).decompose ∧
    (DatePeriod.Daily 2024 2).aggregate = .Month 2024 1 ∧
    DatePeriod.Month 2024 1 ≠ DatePeriod.Month 2024 2 := by
  refine ⟨by decide, by decide, by decide⟩

/-- Claim C3 (corrected): for every validly constructed period with year at
least 1000, the rendered string is exactly the claimed `YYYYTn` form (year,
tag in Y/Q/M/D, index in decimal with no leading zeros, omitted for
`Year`). For years below 1000 the claim fails: `Display` uses plain `{}`
formatting with no zero-padding (see `C3_counterexample`). -/
theorem C3_display_format (P : DatePeriod) (_hwf : P.wf = true)
    (hy : 1000 ≤ P.get_year) : P.display = specEncode P := by
  cases P with
  | Year y =>
    simp only [DatePeriod.get_year] at hy
    have h := natDigits_length_ge (show 10 ^ 3 ≤ y by norm_num; omega)
    simp [DatePeriod.display, specEncode,
      show 4 - (natDigits y).length = 0 by omega]
  | Quarter y q =>
    simp only [DatePeriod.get_year] at hy
    have h := natDigits_length_ge (show 10 ^ 3 ≤ y by norm_num; omega)
    simp [DatePeriod.display, specEncode,
      show 4 - (natDigits y).length = 0 by omega]
  | Month y m =>
    simp only [DatePeriod.get_year] at hy
    have h := natDigits_length_ge (show 10 ^ 3 ≤ y by norm_num; omega)
    simp [DatePeriod.display, specEncode,
      show 4 - (natDigits y).length = 0 by omega]
  | Daily y d =>
    simp only [DatePeriod.get_year] at hy
    have h := natDigits_length_ge (show 10 ^ 3 ≤ y by norm_num; omega)
    simp [DatePeriod.display, specEncode,
      show 4 - (natDigits y).length = 0 by omega]

/-- Witness for C3 at `Quarter(2024, 2)`. -/
theorem C3_witness :
    (DatePeriod.Quarter 2024 2).display = specEncode (.Quarter 2024 2) :=
  C3_display_format (.Quarter 2024 2) (by decide) (by decide)

/-- Counterexample for C3 as stated: `Year(999)` renders as `"999Y"`, not
as the claimed zero-padded 4-digit form `"0999Y"`. -/
theorem C3_counterexample :
    DatePeriod.display (.Year 999) ≠ specEncode (.Year 999) := by decide

/-- Claim C4 (corrected): `succ` never returns an error, and for every
validly constructed period whose year increment stays inside `u32`
(`year + 1 < 2^32`) it returns exactly the next period the claim describes
(Year and rollovers). At `year = u32::MAX` the claim fails: the `year + 1`
overflows `u32` -- wrapping to year 0 in release builds, panicking in debug
builds -- instead of producing `Year(y + 1)` (see `C4_counterexample`). -/
theorem C4_succ_total (P : DatePeriod) (hwf : P.wf = true)
    (hny : P.get_year + 1 < u32Mod) :
    P.succ = .ok (match P with
      | .Year y => .Year (y + 1)
      | .Quarter y q =>
          if q < 4 then .Quarter y (q + 1) else .Quarter (y + 1) 1
      | .Month y m =>
          if m < 12 then .Month y (m + 1) else .Month (y + 1) 1
      | .Daily y d =>
          if d < maxDaysOf y then .Daily y (d + 1) else .Daily (y + 1) 1) := by
  cases P with
  | Year y =>
    simp only [DatePeriod.get_year] at hny
    simp only [DatePeriod.succ, DatePeriod.succP]
    rw [Nat.mod_eq_of_lt hny]
  | Quarter y q =>
    simp only [DatePeriod.get_year] at hny
    simp only [DatePeriod.succ, DatePeriod.succP]
    by_cases h : q < 4
    · rw [if_pos h, if_pos h]
    · rw [if_neg h, if_neg h, Nat.mod_eq_of_lt hny]
  | Month y m =>
    simp only [DatePeriod.get_year] at hny
    simp only [DatePeriod.succ, DatePeriod.succP]
    by_cases h : m < 12
    · rw [if_pos h, if_pos h]
    · rw [if_neg h, if_neg h, Nat.mod_eq_of_lt hny]
  | Daily y d =>
    simp only [DatePeriod.get_year] at hny
    simp only [DatePeriod.succ, DatePeriod.succP]
    by_cases h : d < maxDaysOf y
    · rw [if_pos h, if_pos h]
    · rw [if_neg h, if_neg h, Nat.mod_eq_of_lt hny]

/-- Witness for C4 at the year-rollover case `Quarter(2024, 4)`. -/
theorem C4_witness :
    (DatePeriod.Quarter 2024 4).wf = true ∧
    (DatePeriod.Quarter 2024 4).succ = .ok (.Quarter 2025 1) :=
  ⟨by decide, (C4_succ_total (.Quarter 2024 4) (by decide) (by decide)).trans
    (by decide)⟩

/-- Counterexample for C4 as stated: at `Year(u32::MAX)` the successor is
not `Year(u32::MAX + 1)` -- the modelled wrapping addition yields
`Year(0)` (and a debug build would panic on the overflow). -/
theorem C4_counterexample :
    ¬ ((DatePeriod.Year 4294967295).succ = .ok (.Year 4294967296)) := by
  decide

/-- Claim C5 (corrected): `pred` fails exactly on `Year(0)`, `Quarter(0,1)`,
`Month(0,1)` and `Daily(0,1)` among validly constructed periods; and for
`Daily(y, 1)` with `0 < y ≤ 2^31` the result is
`Daily(y-1, 366 if IsLeapYear(y-1) else 365)`. For years above 2^31 the
day bound of the prior year is computed through the `as i32` cast and can
disagree with `IsLeapYear(y-1)` (see `C5_counterexample`). -/
theorem C5_pred_domain :
    (∀ P : DatePeriod, P.wf = true →
      (isErr P.pred = true ↔
        (P = .Year 0 ∨ P = .Quarter 0 1 ∨ P = .Month 0 1 ∨ P = .Daily 0 1))) ∧
    (∀ y : Nat, 0 < y → y ≤ i32Half →
      (DatePeriod.Daily y 1).pred =
        .ok (.Daily (y - 1) (if IsLeapYearSpec (y - 1) then 366 else 365))) := by
  constructor
  · intro P hwf
    cases P with
    | Year y =>
      simp only [DatePeriod.pred]
      by_cases hy : y > 0
      · rw [if_pos hy]
        simp [isErr]
        omega
      · rw [if_neg hy]
        simp [isErr]
        omega
    | Quarter y q =>
      rcases DatePeriod.wf_quarter_iff.mp hwf with ⟨hyu, hq1, hq4⟩
      simp only [DatePeriod.pred]
      by_cases hq : q > 1
      · rw [if_pos hq]
        simp [isErr]
        omega
      · rw [if_neg hq]
        by_cases hy : y > 0
        · rw [if_pos hy]
          simp [isErr]
          omega
        · rw [if_neg hy]
          simp [isErr]
          omega
    | Month y m =>
      rcases DatePeriod.wf_month_iff.mp hwf with ⟨hyu, hm1, hm12⟩
      simp only [DatePeriod.pred]
      by_cases hm : m > 1
      · rw [if_pos hm]
        simp [isErr]
        omega
      · rw [if_neg hm]
        by_cases hy : y > 0
        · rw [if_pos hy]
          simp [isErr]
          omega
        · rw [if_neg hy]
          simp [isErr]
          omega
    | Daily y d =>
      rcases DatePeriod.wf_daily_iff.mp hwf with ⟨hyu, hd1, hdm⟩
      simp only [DatePeriod.pred]
      by_cases hd : d > 1
      · rw [if_pos hd]
        simp [isErr]
        omega
      · rw [if_neg hd]
        by_cases hy : y > 0
        · rw [if_pos hy]
          simp [isErr]
          omega
        · rw [if_neg hy]
          simp [isErr]
          omega
  · intro y hy0 hyh
    simp only [DatePeriod.pred]
    rw [if_neg (by omega), if_pos hy0,
      maxDaysOf_eq_spec (show y - 1 < i32Half by
        unfold i32Half
        unfold i32Half at hyh
        omega)]

/-- Witness for C5: `Year(0)` has no predecessor, and `Daily(2024, 1)`
crosses back into non-leap 2023 with day 365. -/
theorem C5_witness :
    isErr (DatePeriod.Year 0).pred = true ∧
    (DatePeriod.Daily 2024 1).pred = .ok (.Daily 2023 365) := by
  obtain ⟨h1, h2⟩ := C5_pred_domain
  exact ⟨(h1 (.Year 0) (by decide)).mpr (Or.inl rfl),
    (h2 2024 (by decide) (by decide)).trans (by decide)⟩

/-- Counterexample for C5 as stated: 2147483700 is divisible by 100 but not
400, so `IsLeapYear` rejects it, yet `pred` of `Daily(2147483701, 1)`
computes the bound through `leap_year(2147483700u32 as i32)` =
`leap_year(-2147483596)` = true and yields day 366, not 365. -/
theorem C5_counterexample :
    (DatePeriod.Daily 2147483701 1).pred = .ok (.Daily 2147483700 366) ∧
    IsLeapYearSpec 2147483700 = false ∧
    (DatePeriod.Daily 2147483701 1).pred ≠ .ok (.Daily 2147483700 365) := by
  refine ⟨by decide, by decide, by decide⟩

/-- Claim C6 (corrected): for every validly constructed period with a
defined predecessor and with `year + 1 < 2^32`, `Pred(Succ(P)) = P` and
`Succ(Pred(P)) = P`. At `Year(u32::MAX)` -- which has a predecessor -- the
first identity fails because `succ` wraps to year 0, whose predecessor is
an error (see `C6_counterexample`). -/
theorem C6_succ_pred_inverse (P Q : DatePeriod) (hwf : P.wf = true)
    (hnp : isErr P.pred = false) (hny : P.get_year + 1 < u32Mod) :
    P.succP.pred = .ok P ∧ (P.pred = .ok Q → Q.succP = P) := by
  cases P with
  | Year y =>
    rcases DatePeriod.wf_year_iff.mp hwf with hyu
    simp only [DatePeriod.get_year] at hny
    simp only [DatePeriod.pred, isErr] at hnp
    have hy0 : 0 < y := by
      by_contra hy
      rw [if_neg hy] at hnp
      simp at hnp
    constructor
    · simp only [DatePeriod.succP, DatePeriod.pred]
      rw [Nat.mod_eq_of_lt hny, if_pos (by omega)]
      simp
    · intro hq
      simp only [DatePeriod.pred] at hq
      rw [if_pos hy0] at hq
      cases hq
      simp only [DatePeriod.succP]
      rw [Nat.mod_eq_of_lt (by omega)]
      congr 1
      omega
  | Quarter y q =>
    rcases DatePeriod.wf_quarter_iff.mp hwf with ⟨hyu, hq1, hq4⟩
    simp only [DatePeriod.get_year] at hny
    constructor
    · simp only [DatePeriod.succP]
      by_cases h : q < 4
      · rw [if_pos h]
        simp only [DatePeriod.pred]
        rw [if_pos (by omega)]
        simp
      · rw [if_neg h, Nat.mod_eq_of_lt hny]
        simp only [DatePeriod.pred]
        rw [if_neg (by omega), if_pos (by omega)]
        congr 2
        omega
    · intro hq
      simp only [DatePeriod.pred] at hq
      by_cases h : q > 1
      · rw [if_pos h] at hq
        cases hq
        simp only [DatePeriod.succP]
        rw [if_pos (by omega)]
        congr 1
        omega
      · rw [if_neg h] at hq
        by_cases hy : y > 0
        · rw [if_pos hy] at hq
          cases hq
          simp only [DatePeriod.succP]
          rw [if_neg (by omega), Nat.mod_eq_of_lt (by omega)]
          congr 1 <;> omega
        · rw [if_neg hy] at hq
          cases hq
  | Month y m =>
    rcases DatePeriod.wf_month_iff.mp hwf with ⟨hyu, hm1, hm12⟩
    simp only [DatePeriod.get_year] at hny
    constructor
    · simp only [DatePeriod.succP]
      by_cases h : m < 12
      · rw [if_pos h]
        simp only [DatePeriod.pred]
        rw [if_pos (by omega)]
        simp
      · rw [if_neg h, Nat.mod_eq_of_lt hny]
        simp only [DatePeriod.pred]
        rw [if_neg (by omega), if_pos (by omega)]
        congr 2
        omega
    · intro hq
      simp only [DatePeriod.pred] at hq
      by_cases h : m > 1
      · rw [if_pos h] at hq
        cases hq
        simp only [DatePeriod.succP]
        rw [if_pos (by omega)]
        congr 1
        omega
      · rw [if_neg h] at hq
        by_cases hy : y > 0
        · rw [if_pos hy] at hq
          cases hq
          simp only [DatePeriod.succP]
          rw [if_neg (by omega), Nat.mod_eq_of_lt (by omega)]
          congr 1 <;> omega
        · rw [if_neg hy] at hq
          cases hq
  | Daily y d =>
    rcases DatePeriod.wf_daily_iff.mp hwf with ⟨hyu, hd1, hdm⟩
    simp only [DatePeriod.get_year] at hny
    constructor
    · simp only [DatePeriod.succP]
      by_cases h : d < maxDaysOf y
      · rw [if_pos h]
        simp only [DatePeriod.pred]
        rw [if_pos (by omega)]
        simp
      · rw [if_neg h, Nat.mod_eq_of_lt hny]
        simp only [DatePeriod.pred]
        rw [if_neg (by omega), if_pos (by omega)]
        rw [show y + 1 - 1 = y by omega, show d = maxDaysOf y by omega]
    · intro hq
      simp only [DatePeriod.pred] at hq
      by_cases h : d > 1
      · rw [if_pos h] at hq
        cases hq
        simp only [DatePeriod.succP]
        rw [if_pos (by omega)]
        congr 1
        omega
      · rw [if_neg h] at hq
        by_cases hy : y > 0
        · rw [if_pos hy] at hq
          cases hq
          simp only [DatePeriod.succP]
          rw [if_neg (by omega), Nat.mod_eq_of_lt (by omega)]
          congr 1 <;> omega
        · rw [if_neg hy] at hq
          cases hq

/-- Witness for C6 at `Daily(2024, 1)`, whose predecessor crosses a year
boundary. -/
theorem C6_witness :
    (DatePeriod.Daily 2024 1).succP.pred = .ok (.Daily 2024 1) ∧
    ((DatePeriod.Daily 2024 1).pred = .ok (.Daily 2023 365) →
      (DatePeriod.Daily 2023 365).succP = .Daily 2024 1) :=
  C6_succ_pred_inverse (.Daily 2024 1) (.Daily 2023 365) (by decide)
    (by decide) (by decide)

/-- Counterexample for C6 as stated: `Year(u32::MAX)` has a defined
predecessor, yet `Pred(Succ(Year(u32::MAX)))` is a `NoPredecessor` error
(the wrapped successor is `Year(0)`), not the original period. -/
theorem C6_counterexample :
    isErr (DatePeriod.Year 4294967295).pred = false ∧
    (DatePeriod.Year 4294967295).succP.pred = .error .noPredecessor := by
  refine ⟨by decide, by decide⟩

/-- Claim C7 (corrected): `quarter` fails exactly when q is outside [1,4],
`month` exactly when m is outside [1,12], `year` always succeeds, and for
every year below 2^31 `daily` fails exactly when d < 1 or d exceeds the
`IsLeapYear`-dependent bound; `Daily(2024,366)` succeeds and
`Daily(2023,366)` fails. For years at or above 2^31 the `as i32` cast makes
the code evaluate the leap rule on `y - 2^32`, which can disagree with
`IsLeapYear(y)` (see `C7_counterexample`). -/
theorem C7_constructor_validation :
    (∀ y q : Nat, isErr (DatePeriod.quarter y q) = true ↔ ¬ (1 ≤ q ∧ q ≤ 4)) ∧
    (∀ y m : Nat, isErr (DatePeriod.month y m) = true ↔ ¬ (1 ≤ m ∧ m ≤ 12)) ∧
    (∀ y d : Nat, y < i32Half →
      (isErr (DatePeriod.daily y d) = true ↔
        (d < 1 ∨ d > (if IsLeapYearSpec y then 366 else 365)))) ∧
    (∀ y : Nat, DatePeriod.year y = .Year y) ∧
    DatePeriod.daily 2024 366 = .ok (.Daily 2024 366) ∧
    isErr (DatePeriod.daily 2023 366) = true := by
  refine ⟨?_, ?_, ?_, fun y => rfl, by decide, by decide⟩
  · intro y q
    unfold DatePeriod.quarter
    by_cases h : 1 ≤ q ∧ q ≤ 4
    · rw [if_neg (by tauto)]
      simp [isErr, h]
    · rw [if_pos (by tauto)]
      simp [isErr, h]
  · intro y m
    unfold DatePeriod.month
    by_cases h : 1 ≤ m ∧ m ≤ 12
    · rw [if_neg (by tauto)]
      simp [isErr, h]
    · rw [if_pos (by tauto)]
      simp [isErr, h]
  · intro y d hy
    unfold DatePeriod.daily
    rw [show maxDaysOf y = if IsLeapYearSpec y then 366 else 365 from
      maxDaysOf_eq_spec hy]
    by_cases h0 : d = 0
    · rw [if_pos h0]
      simp [isErr]
      omega
    · rw [if_neg h0]
      by_cases hbig : d > (if IsLeapYearSpec y then 366 else 365)
      · rw [if_pos hbig]
        simp [isErr]
        omega
      · rw [if_neg hbig]
        simp [isErr]
        omega

/-- Witness for C7 at the out-of-range inputs the claim names. -/
theorem C7_witness :
    isErr (DatePeriod.quarter 2024 5) = true ∧
    isErr (DatePeriod.month 2024 13) = true ∧
    isErr (DatePeriod.daily 2023 366) = true := by
  obtain ⟨h1, h2, h3, _, _, _⟩ := C7_constructor_validation
  exact ⟨(h1 2024 5).mpr (by omega), (h2 2024 13).mpr (by omega),
    (h3 2023 366 (by decide)).mpr (by decide)⟩

/-- Counterexample for C7 as stated: year 2147483700 (at least 2^31, and
divisible by 100 but not 400) is not a leap year per `IsLeapYear`, so the
claim demands `daily(2147483700, 366)` fail, yet the code accepts it: the
`as i32` cast evaluates `leap_year(-2147483596)`, which is true. -/
theorem C7_counterexample :
    DatePeriod.daily 2147483700 366 = .ok (.Daily 2147483700 366) ∧
    IsLeapYearSpec 2147483700 = false := by
  refine ⟨by decide, by decide⟩

/-- Claim C8 (code bug): `parse` is not total over arbitrary strings: on
the 7-byte input `"2024€"` the trimmed length passes the `< 5` check and
the year parses, but the slice `&s[4..5]` falls inside the multi-byte
character `'€'` (bytes 4..7), which panics in Rust -- modelled here as the
`none` outcome of `parse`. -/
theorem C8_parse_panics :
    DatePeriod.parse ['2', '0', '2', '4', '€'] = none := by decide

/-- Claim C9 (corrected): the between-dates enumerations return the empty
sequence whenever start > end; and for valid dates with years in
[0, 2^31), when start <= end the quarter and daily enumerations return
exactly the inclusive successor chain from the start date's period whose
length is the index distance to the end date's period (crossing year
boundaries; the cross-year quarter scenario is `C9_witness`). For dates
with negative years the claim fails: `date.year() as u32` wraps negative
years to huge values, and the enumeration comes back empty although
start <= end (see `C9_counterexample`). -/
theorem C9_between_ranges :
    (∀ s e : NDate, NDate.ble s e = false →
      DatePeriod.between_date_as_quarter s e = some (.ok []) ∧
      DatePeriod.between_date_as_daily s e = some (.ok [])) ∧
    (∀ s e : NDate, s.valid = true → e.valid = true → 0 ≤ s.year →
      e.year < (i32Half : Int) → NDate.ble s e = true →
      DatePeriod.between_date_as_quarter s e =
        some (.ok (succChain (DatePeriod.from_date_as_quarter s)
          (quarterIdx (DatePeriod.from_date_as_quarter e) + 1 -
            quarterIdx (DatePeriod.from_date_as_quarter s)))) ∧
      DatePeriod.between_date_as_daily s e =
        some (.ok (succChain (DatePeriod.from_date_as_daily s)
          (dailyIdx (DatePeriod.from_date_as_daily e) + 1 -
            dailyIdx (DatePeriod.from_date_as_daily s))))) := by
  constructor
  · intro s e h
    constructor
    · unfold DatePeriod.between_date_as_quarter
      rw [if_neg (by rw [h]; simp)]
    · unfold DatePeriod.between_date_as_daily
      rw [if_neg (by rw [h]; simp)]
  · intro s e hsv hev hs0 heh hse
    have hyear_le : s.year ≤ e.year := NDate.ble_year_le hse
    obtain ⟨hylen, hyeh⟩ := i32AsU32_le_of_le hs0 hyear_le heh
    have hseY : u32AsI32 (i32AsU32 s.year) = s.year :=
      u32AsI32_i32AsU32_nonneg hs0 (by omega)
    have heeY : u32AsI32 (i32AsU32 e.year) = e.year :=
      u32AsI32_i32AsU32_nonneg (by omega) heh
    constructor
    · obtain ⟨qs, hqs_def, hqs1, hqs4⟩ :
          ∃ q, DatePeriod.from_date_as_quarter s =
            .Quarter (i32AsU32 s.year) q ∧ 1 ≤ q ∧ q ≤ 4 := by
        refine ⟨_, rfl, ?_, ?_⟩ <;> (split_ifs <;> omega)
      obtain ⟨qe, hqe_def, hqe1, hqe4⟩ :
          ∃ q, DatePeriod.from_date_as_quarter e =
            .Quarter (i32AsU32 e.year) q ∧ 1 ≤ q ∧ q ≤ 4 := by
        refine ⟨_, rfl, ?_, ?_⟩ <;> (split_ifs <;> omega)
      unfold DatePeriod.between_date_as_quarter
      rw [if_pos hse, hqs_def, hqe_def,
        quarter_loop hqs1 hqs4 hqe1 hqe4 hylen hyeh (by omega)]
    · obtain ⟨hso1, hsom⟩ := ordinal_bounds hsv
      obtain ⟨heo1, heom⟩ := ordinal_bounds hev
      have hmaxs : maxDaysOf (i32AsU32 s.year) =
          if leap_year s.year then 366 else 365 := by
        unfold maxDaysOf
        rw [hseY]
      have hmaxe : maxDaysOf (i32AsU32 e.year) =
          if leap_year e.year then 366 else 365 := by
        unfold maxDaysOf
        rw [heeY]
      have hds_def : DatePeriod.from_date_as_daily s =
          .Daily (i32AsU32 s.year) s.ordinal := rfl
      have hde_def : DatePeriod.from_date_as_daily e =
          .Daily (i32AsU32 e.year) e.ordinal := rfl
      have hdem : e.ordinal ≤ maxDaysOf (i32AsU32 e.year) := by
        rw [hmaxe]
        exact heom
      unfold DatePeriod.between_date_as_daily
      rw [if_pos hse, hds_def, hde_def,
        daily_loop hso1 (by rw [hmaxs]; exact hsom) heo1 hdem hylen hyeh
          (by
            have h1 := daysBeforeYear_le (i32AsU32 e.year)
            have h2 : e.ordinal ≤ 366 := by
              rw [hmaxe] at hdem
              split at hdem <;> omega
            omega)]

/-- Witness for C9: the claim's cross-year quarter scenario, and an empty
range when start > end. -/
theorem C9_witness :
    DatePeriod.between_date_as_quarter ⟨2024, 10, 1⟩ ⟨2025, 3, 31⟩ =
      some (.ok [.Quarter 2024 4, .Quarter 2025 1]) ∧
    DatePeriod.between_date_as_daily ⟨2024, 3, 2⟩ ⟨2024, 2, 28⟩ =
      some (.ok []) := by
  obtain ⟨hempty, hchain⟩ := C9_between_ranges
  constructor
  · exact ((hchain ⟨2024, 10, 1⟩ ⟨2025, 3, 31⟩ (by decide) (by decide)
      (by decide) (by decide) (by decide)).1).trans (by decide)
  · exact ((hempty ⟨2024, 3, 2⟩ ⟨2024, 2, 28⟩ (by decide)).2)

/-- Counterexample for C9 as stated: from the valid date -0001-10-01 to the
valid later date 0000-03-31 the quarter enumeration is empty, because the
start year -1 is cast `as u32` to 4294967295 and the loop guard fails
immediately -- not the claimed inclusive sequence, which would contain the
start date's quarter. -/
theorem C9_counterexample :
    NDate.ble ⟨-1, 10, 1⟩ ⟨0, 3, 31⟩ = true ∧
    (⟨-1, 10, 1⟩ : NDate).valid = true ∧ (⟨0, 3, 31⟩ : NDate).valid = true ∧
    DatePeriod.between_date_as_quarter ⟨-1, 10, 1⟩ ⟨0, 3, 31⟩ =
      some (.ok []) := by
  refine ⟨by decide, by decide, by decide, by decide⟩

/-- Claim C10 (confirmed): `parse` trims leading and trailing whitespace
before any structural check, so `parse(s) = parse(trim(s))` for every
string; in particular `" 2024Q2 "` parses to `Quarter(2024, 2)` and
`"2024Y "` -- longer than 5 bytes only because of the trailing blank -- is
accepted as `Year(2024)`. -/
theorem C10_parse_trims :
    (∀ s : List Char, DatePeriod.parse s = DatePeriod.parse (strTrim s)) ∧
    DatePeriod.parse [' ', '2', '0', '2', '4', 'Q', '2', ' '] =
      some (.ok (.Quarter 2024 2)) ∧
    DatePeriod.parse ['2', '0', '2', '4', 'Y', ' '] =
      some (.ok (.Year 2024)) := by
  refine ⟨fun s => ?_, by decide, by decide⟩
  simp only [DatePeriod.parse]
  rw [strTrim_idem]
